import Mathlib

/-!
Verification of the ETL script `etl.py` (song/log JSON files → relational
insert statements).  The script is embedded shallowly: each database-facing
call (`cur.execute`) becomes an element of an action trace; the external
collaborators (JSON parsing, pandas frames, the SQL text, `os.walk`, `glob`)
are modelled by their documented behaviour on already-parsed records.
-/

/-- A Python value as it appears in a parameter tuple handed to
`cur.execute`: strings, integers, rationals standing for the floats in the
data, `None`, and a millisecond-precision datetime (pandas `Timestamp`,
identified with its millisecond epoch value). -/
inductive PyVal where
  | s (v : String)
  | i (v : Int)
  | r (v : Rat)
  | none
  | dt (ms : Nat)
  deriving DecidableEq, Repr

/-- The parametrized SQL statements imported from `sql_queries` — opaque
handles, per the spec an external collaborator. -/
inductive Stmt where
  | song_table_insert
  | artist_table_insert
  | time_table_insert
  | user_table_insert
  | songplay_table_insert
  | song_select
  deriving DecidableEq, Repr

/-- One `cur.execute(stmt, params)` call. -/
structure DBAct where
  stmt : Stmt
  params : List PyVal
  deriving DecidableEq, Repr

/-- The parsed content of one song-metadata file
(`pd.read_json(filepath, typ="series")`). -/
structure SongRecord where
  song_id : String
  title : String
  artist_id : String
  year : Int
  duration : Rat
  artist_name : String
  artist_location : String
  artist_latitude : Option Rat
  artist_longitude : Option Rat
  deriving DecidableEq, Repr

/-- One parsed line of an activity-log file
(`pd.read_json(filepath, lines=True)`). -/
structure LogRecord where
  page : String
  ts : Nat
  userId : String
  firstName : String
  lastName : String
  gender : String
  level : String
  song : String
  artist : String
  length : Rat
  sessionId : Nat
  location : String
  userAgent : String
  deriving DecidableEq, Repr

/-- Label lookup on the song series, modelling `df[label]` on the
`typ="series"` frame. -/
def SongRecord.get (d : SongRecord) : String → PyVal
  | "song_id" => .s d.song_id
  | "title" => .s d.title
  | "artist_id" => .s d.artist_id
  | "year" => .i d.year
  | "duration" => .r d.duration
  | "artist_name" => .s d.artist_name
  | "artist_location" => .s d.artist_location
  | "artist_latitude" => match d.artist_latitude with
      | Option.some x => .r x
      | Option.none => .none
  | "artist_longitude" => match d.artist_longitude with
      | Option.some x => .r x
      | Option.none => .none
  | _ => .none

/-- Column lookup on one log-frame row, modelling `row[label]`. -/
def LogRecord.get (r : LogRecord) : String → PyVal
  | "page" => .s r.page
  | "ts" => .i (r.ts : Int)
  | "userId" => .s r.userId
  | "firstName" => .s r.firstName
  | "lastName" => .s r.lastName
  | "gender" => .s r.gender
  | "level" => .s r.level
  | "song" => .s r.song
  | "artist" => .s r.artist
  | "length" => .r r.length
  | "sessionId" => .i (r.sessionId : Int)
  | "location" => .s r.location
  | "userAgent" => .s r.userAgent
  | _ => .none

/-! ### Calendar decomposition

`pd.to_datetime(ts, unit="ms")` interprets `ts` as milliseconds since the
Unix epoch, UTC.  The attribute accesses `.hour`, `.day`, `.week`, `.month`,
`.year`, `.weekday()` decompose that instant; `.week` is the ISO-8601 week
number and `.weekday()` is Monday-based (Monday = 0).  The civil-date
computation follows the standard days-from-epoch algorithm. -/

/-- Days since 1970-01-01 of the instant `ms` milliseconds after the epoch. -/
def epochDays (ms : Nat) : Nat := ms / 1000 / 86400

/-- Hour of day (UTC) of the instant. -/
def hourOf (ms : Nat) : Nat := ms / 1000 % 86400 / 3600

/-- Civil (year, month, day) of the day `z` days after 1970-01-01. -/
def civilFromDays (z : Nat) : Nat × Nat × Nat :=
  let z' := z + 719468
  let era := z' / 146097
  let doe := z' % 146097
  let yoe := (doe - doe / 1460 + doe / 36524 - doe / 146096) / 365
  let y := yoe + era * 400
  let doy := doe - (365 * yoe + yoe / 4 - yoe / 100)
  let mp := (5 * doy + 2) / 153
  let d := doy - (153 * mp + 2) / 5 + 1
  let m := if mp < 10 then mp + 3 else mp - 9
  (if m ≤ 2 then y + 1 else y, m, d)

def yearOf (ms : Nat) : Nat := (civilFromDays (epochDays ms)).1
def monthOf (ms : Nat) : Nat := (civilFromDays (epochDays ms)).2.1
def dayOf (ms : Nat) : Nat := (civilFromDays (epochDays ms)).2.2

/-- Monday-based weekday (`Timestamp.weekday()`): 1970-01-01 was a
Thursday, i.e. weekday 3. -/
def weekdayOf (ms : Nat) : Nat := (epochDays ms + 3) % 7

/-- Gregorian leap-year test. -/
def isLeap (y : Nat) : Bool := y % 4 = 0 && (y % 100 ≠ 0 || y % 400 = 0)

/-- Days in the months January..December preceding month `m`. -/
def daysBeforeMonth (leap : Bool) (m : Nat) : Nat :=
  let tbl : List Nat :=
    if leap then [0, 0, 31, 60, 91, 121, 152, 182, 213, 244, 274, 305, 335]
    else [0, 0, 31, 59, 90, 120, 151, 181, 212, 243, 273, 304, 334]
  tbl.getD m 0

/-- Ordinal day of the year, 1-based. -/
def dayOfYear (y m d : Nat) : Nat := daysBeforeMonth (isLeap y) m + d

/-- Number of ISO weeks in year `y` (52 or 53). -/
def isoWeeksInYear (y : Nat) : Nat :=
  let p : Nat → Nat := fun yy => (yy + yy / 4 - yy / 100 + yy / 400) % 7
  if p y = 4 ∨ p (y - 1) = 3 then 53 else 52

/-- ISO-8601 week number of the given civil date with Monday-based
weekday `wd`. -/
def isoWeek (y m d wd : Nat) : Nat :=
  let w := (dayOfYear y m d + 10 - (wd + 1)) / 7
  if w = 0 then isoWeeksInYear (y - 1)
  else if w > isoWeeksInYear y then 1
  else w

/-- Pandas `Timestamp.week` of the instant `ms` milliseconds after the epoch. -/
def weekOf (ms : Nat) : Nat :=
  isoWeek (yearOf ms) (monthOf ms) (dayOf ms) (weekdayOf ms)

/-! ### process_song_file

`pd.read_json(typ="series")` is modelled as the parsed `SongRecord`;
`df[[labels]].values.tolist()` as a label-wise projection. -/

def song_labels : List String :=
  ["song_id", "title", "artist_id", "year", "duration"]

def artist_labels : List String :=
  ["artist_id", "artist_name", "artist_location",
   "artist_latitude", "artist_longitude"]

/-- The trace of `cur.execute` calls made by `process_song_file` on one
parsed song file. -/
def process_song_file (d : SongRecord) : List DBAct :=
  let song_data := song_labels.map d.get
  let artist_data := artist_labels.map d.get
  [⟨.song_table_insert, song_data⟩, ⟨.artist_table_insert, artist_data⟩]

/-! ### process_log_file -/

/-- The row assembled from one kept record for `time_table_insert`:
`[t[i], t[i].hour, t[i].day, t[i].week, t[i].month, t[i].year,
t[i].weekday()]`. -/
def timeRow (ms : Nat) : List PyVal :=
  [.dt ms, .i (hourOf ms : Nat), .i (dayOf ms : Nat), .i (weekOf ms : Nat),
   .i (monthOf ms : Nat), .i (yearOf ms : Nat), .i (weekdayOf ms : Nat)]

def user_labels : List String :=
  ["userId", "firstName", "lastName", "gender", "level"]

/-- The row for `user_table_insert`, the projection
`df[["userId", "firstName", "lastName", "gender", "level"]]`. -/
def userRow (r : LogRecord) : List PyVal := user_labels.map r.get

/-- The catalog answer to `song_select`: `cur.fetchone()` after executing
the lookup with (song, artist, length) — an external collaborator,
abstracted as a function. -/
def Lookup : Type := String → String → Rat → Option (String × String)

/-- The `songplay_data` tuple for one kept record, given the catalog
answer. -/
def songplayRow (lookup : Lookup) (r : LogRecord) : List PyVal :=
  let ids : PyVal × PyVal :=
    match lookup r.song r.artist r.length with
    | Option.some (sid, aid) => (.s sid, .s aid)
    | Option.none => (.none, .none)
  [.dt r.ts, .s r.userId, .s r.level, ids.1, ids.2,
   .i (r.sessionId : Nat), .s r.location, .s r.userAgent]

/-- The two `cur.execute` calls made for one kept record in the songplay
loop: the catalog lookup, then the fact insert. -/
def songplayBlock (lookup : Lookup) (r : LogRecord) : List DBAct :=
  [⟨.song_select, [.s r.song, .s r.artist, .r r.length]⟩,
   ⟨.songplay_table_insert, songplayRow lookup r⟩]

/-- The trace of `cur.execute` calls made by `process_log_file` on one
parsed log file (list of records), given the catalog. -/
def process_log_file (lookup : Lookup) (recs : List LogRecord) : List DBAct :=
  let df := recs.filter (fun r => r.page == "NextSong")
  df.map (fun r => DBAct.mk .time_table_insert (timeRow r.ts))
    ++ df.map (fun r => DBAct.mk .user_table_insert (userRow r))
    ++ df.flatMap (songplayBlock lookup)

/-! ### process_data (the Batch Driver)

The filesystem is a tree of named entries; `os.walk` and
`glob.glob(os.path.join(root, "*.json"))` are modelled by their documented
behaviour: the walk yields every directory top-down, and the glob returns
the entries (files or directories) of one directory whose names match the
pattern — `*` does not match a leading dot.  `os.path.abspath` is modelled,
for the relative dot-free paths the script uses, as prefixing the working
directory. -/

inductive FSEntry where
  | file (name : String)
  | dir (name : String) (entries : List FSEntry)

def FSEntry.name : FSEntry → String
  | .file n => n
  | .dir n _ => n

/-- Suffix test on the character content of a string. -/
def strEndsWith (s suf : String) : Bool := suf.data.isSuffixOf s.data

/-- Leading-character test on the character content of a string. -/
def strStartsWith (s pre : String) : Bool := pre.data.isPrefixOf s.data

/-- Whether `glob` with pattern `*.json` matches this entry name: `*`
matches any run of characters except that it does not match a leading
dot (hidden entries are skipped). -/
def globMatchJson (name : String) : Bool :=
  strEndsWith name ".json" && !strStartsWith name "."

/-- Model of `glob.glob(os.path.join(root, "*.json"))`: the matching entries of one
directory, joined to the root path, in directory order. -/
def globJson (root : String) (entries : List FSEntry) : List String :=
  entries.filterMap fun e =>
    if globMatchJson e.name then Option.some (root ++ "/" ++ e.name)
    else Option.none

/-- The `os.walk` triples produced below one directory entry (the entry
itself first, then its subtrees top-down, in directory order).  A plain
file produces nothing. -/
def FSEntry.walk (parent : String) : FSEntry → List (String × List FSEntry)
  | .file _ => []
  | .dir n es =>
      (parent ++ "/" ++ n, es) ::
        es.attach.flatMap fun e => e.1.walk (parent ++ "/" ++ n)
termination_by e => sizeOf e
decreasing_by
  simp_wf
  have h := List.sizeOf_lt_of_mem e.2
  omega

/-- Model of `os.walk(p)` for a root path `p` that is a directory with entries
`es` (`fs = some es`), or missing / not a directory (`fs = none`, which
yields nothing). -/
def walkRoot (p : String) (fs : Option (List FSEntry)) :
    List (String × List FSEntry) :=
  match fs with
  | Option.none => []
  | Option.some es => (p, es) :: es.flatMap fun e => e.walk p

/-- The `all_files` list built by `process_data`: for every walked
directory, the glob matches, made absolute. -/
def process_data_files (cwd p : String) (fs : Option (List FSEntry)) :
    List String :=
  (walkRoot p fs).flatMap fun re => (globJson re.1 re.2).map (cwd ++ "/" ++ ·)

/-- The per-file pipeline passed as `func`. -/
inductive Func where
  | song
  | log
  deriving DecidableEq, Repr

/-- Observable events of the Batch Driver: progress printed to stdout,
one per-file pipeline invocation, one commit per file. -/
inductive Ev where
  | print (s : String)
  | proc (func : Func) (file : String)
  | commit
  deriving DecidableEq, Repr

/-- The `for i, datafile in enumerate(all_files, 1)` loop body:
`func(cur, datafile); conn.commit(); print(...)`. -/
def driverLoop (func : Func) (n : Nat) : Nat → List String → List Ev
  | _, [] => []
  | i, f :: fs =>
      .proc func f :: .commit ::
        .print (toString i ++ "/" ++ toString n ++ " files processed.") ::
        driverLoop func n (i + 1) fs

/-- Result of one `process_data` call: the internal `all_files` list, the
event trace, and the Python return value (the body has no return
statement, so the call returns `None`). -/
structure PDResult where
  all_files : List String
  events : List Ev
  ret : Option (List String)
  deriving Repr

def process_data (cwd p : String) (fs : Option (List FSEntry))
    (func : Func) : PDResult :=
  let all_files := process_data_files cwd p fs
  let num_files := all_files.length
  { all_files := all_files
    events := .print (toString num_files ++ " files found in " ++ p) ::
      driverLoop func num_files 1 all_files
    ret := Option.none }

/-! ### main -/

inductive MainEv where
  | connect (dsn : String)
  | driver (e : Ev)
  | close
  deriving DecidableEq, Repr

/-- The event trace of `main()`, given the working directory and the
contents found at the two fixed data roots. -/
def etl_main (cwd : String) (songFs logFs : Option (List FSEntry)) :
    List MainEv :=
  .connect "host=127.0.0.1 dbname=sparkifydb user=student password=student" ::
    ((process_data cwd "data/song_data" songFs .song).events.map .driver
      ++ (process_data cwd "data/log_data" logFs .log).events.map .driver
      ++ [.close])

/-! ### Direct descriptions of the enumeration

Two reference descriptions of what the enumeration collects, to compare
with `process_data_files`.  `jsonFilesBelow` follows the claim's words:
every file beneath the root whose name ends in ".json".  `globBelow` is
the direct recursive description of what walk-plus-glob actually
collects: in every directory, the entries (files or directories) whose
names match the glob pattern, then the subdirectories in order. -/

/-- Claim-side description: the absolute paths of all plain files beneath
the directory at path `parent` (relative to `cwd`) whose names end in
".json", hidden or not, in traversal order. -/
def jsonFilesBelow (cwd parent : String) : FSEntry → List String
  | .file n =>
      if strEndsWith n ".json" then [cwd ++ "/" ++ (parent ++ "/" ++ n)]
      else []
  | .dir n es =>
      es.attach.flatMap fun e => jsonFilesBelow cwd (parent ++ "/" ++ n) e.1
termination_by e => sizeOf e
decreasing_by
  simp_wf
  have h := List.sizeOf_lt_of_mem e.2
  omega

def jsonFilesRoot (cwd p : String) (fs : Option (List FSEntry)) :
    List String :=
  match fs with
  | Option.none => []
  | Option.some es => es.flatMap fun e => jsonFilesBelow cwd p e

/-- Amended description: below the directory entry, every entry (file or
directory) whose name matches the glob pattern, directory by directory,
top-down. -/
def globBelow (cwd parent : String) : FSEntry → List String
  | .file _ => []
  | .dir n es =>
      (globJson (parent ++ "/" ++ n) es).map (cwd ++ "/" ++ ·) ++
        es.attach.flatMap fun e => globBelow cwd (parent ++ "/" ++ n) e.1
termination_by e => sizeOf e
decreasing_by
  simp_wf
  have h := List.sizeOf_lt_of_mem e.2
  omega

def globRoot (cwd p : String) (fs : Option (List FSEntry)) : List String :=
  match fs with
  | Option.none => []
  | Option.some es =>
      (globJson p es).map (cwd ++ "/" ++ ·) ++
        es.flatMap fun e => globBelow cwd p e

/-! ### Helper lemmas -/

theorem flatMap_congr_mem {α β : Type _} {l : List α} {f g : α → List β}
    (h : ∀ a ∈ l, f a = g a) : l.flatMap f = l.flatMap g := by
  induction l with
  | nil => rfl
  | cons a l ih =>
      rw [List.flatMap_cons, List.flatMap_cons, h a (by simp)]
      rw [ih fun x hx => h x (by simp [hx])]

/-- What glob collects over the walk of one entry is the direct
per-directory listing. -/
theorem walk_glob_below (cwd parent : String) (e : FSEntry) :
    (e.walk parent).flatMap
        (fun re => (globJson re.1 re.2).map (cwd ++ "/" ++ ·)) =
      globBelow cwd parent e := by
  cases e with
  | file n => simp [FSEntry.walk, globBelow]
  | dir n es =>
      rw [FSEntry.walk, globBelow, List.flatMap_cons, List.flatMap_assoc]
      congr 1
      exact flatMap_congr_mem fun a _ =>
        walk_glob_below cwd (parent ++ "/" ++ n) a.1
termination_by sizeOf e
decreasing_by
  simp_wf
  have h := List.sizeOf_lt_of_mem a.2
  omega

/-- C7 (amended): the Batch Driver's enumeration collects, in traversal
order (top-down, per-directory glob matches first, subdirectories in
directory order), exactly the entries — files or directories — beneath
the root whose names match the glob pattern `*.json`, i.e. end in ".json"
and do not begin with a dot; each occurrence contributes exactly one
path.  (The original claim said: all files whose names end in ".json";
hidden files are in fact skipped and matching directories collected.) -/
theorem C7_glob_enumeration (cwd p : String)
    (fs : Option (List FSEntry)) :
    process_data_files cwd p fs = globRoot cwd p fs := by
  cases fs with
  | none => rfl
  | some es =>
      rw [process_data_files, walkRoot, globRoot, List.flatMap_cons,
        List.flatMap_assoc]
      congr 1
      exact flatMap_congr_mem fun a _ => walk_glob_below cwd p a

/-- Parameter tuple of an action when it executes the given statement. -/
def paramsIf (st : Stmt) (a : DBAct) : Option (List PyVal) :=
  if a.stmt = st then Option.some a.params else Option.none

theorem filterMap_paramsIf_map_same (st : Stmt) (f : LogRecord → List PyVal)
    (l : List LogRecord) :
    List.filterMap (paramsIf st ∘ fun r => DBAct.mk st (f r)) l = l.map f := by
  induction l with
  | nil => rfl
  | cons r l ih => simp [paramsIf, ih, Function.comp]

theorem filterMap_paramsIf_map_ne (st st2 : Stmt) (h : st2 ≠ st)
    (f : LogRecord → List PyVal) (l : List LogRecord) :
    List.filterMap (paramsIf st ∘ fun r => DBAct.mk st2 (f r)) l = [] := by
  induction l with
  | nil => rfl
  | cons r l ih => simp [paramsIf, h, ih, Function.comp]

theorem play_filterMap_time (lookup : Lookup) (l : List LogRecord) :
    (l.flatMap (songplayBlock lookup)).filterMap
        (paramsIf .time_table_insert) = [] := by
  induction l with
  | nil => rfl
  | cons r l ih => simp [songplayBlock, paramsIf, ih]

theorem play_filterMap_user (lookup : Lookup) (l : List LogRecord) :
    (l.flatMap (songplayBlock lookup)).filterMap
        (paramsIf .user_table_insert) = [] := by
  induction l with
  | nil => rfl
  | cons r l ih => simp [songplayBlock, paramsIf, ih]

theorem play_filterMap_play (lookup : Lookup) (l : List LogRecord) :
    (l.flatMap (songplayBlock lookup)).filterMap
        (paramsIf .songplay_table_insert) = l.map (songplayRow lookup) := by
  induction l with
  | nil => rfl
  | cons r l ih => simp [songplayBlock, paramsIf, ih]

/-- C1: exactly the records whose "page" field equals "NextSong" reach the
downstream transforms, and each kept record yields exactly one TimeMark
row, one User row and one SongPlay row, in file order with no
deduplication — so a file with 10 lines of which 3 have page "NextSong"
yields exactly 3 TimeMark, 3 User and 3 SongPlay insert executions. -/
theorem C1_nextSong_rows (lookup : Lookup) (recs : List LogRecord) :
    ((process_log_file lookup recs).filterMap (paramsIf .time_table_insert)
        = (recs.filter fun r => r.page == "NextSong").map fun r => timeRow r.ts)
    ∧ ((process_log_file lookup recs).filterMap (paramsIf .user_table_insert)
        = (recs.filter fun r => r.page == "NextSong").map userRow)
    ∧ ((process_log_file lookup recs).filterMap
          (paramsIf .songplay_table_insert)
        = (recs.filter fun r => r.page == "NextSong").map
            (songplayRow lookup)) := by
  refine ⟨?_, ?_, ?_⟩ <;>
    simp [process_log_file, List.filterMap_append,
      filterMap_paramsIf_map_same, filterMap_paramsIf_map_ne,
      play_filterMap_time, play_filterMap_user, play_filterMap_play]

/-- C4: for every parsed song file, `process_song_file` executes the song
insert with the 5-tuple (song_id, title, artist_id, year, duration) and
the artist insert with the 5-tuple (artist_id, name, location, latitude,
longitude), in that order, each value taken unmodified from the file. -/
theorem C4_song_artist_tuples (d : SongRecord) :
    process_song_file d =
      [⟨.song_table_insert,
        [.s d.song_id, .s d.title, .s d.artist_id, .i d.year,
         .r d.duration]⟩,
       ⟨.artist_table_insert,
        [.s d.artist_id, .s d.artist_name, .s d.artist_location,
         (match d.artist_latitude with
          | Option.some x => PyVal.r x
          | Option.none => PyVal.none),
         (match d.artist_longitude with
          | Option.some x => PyVal.r x
          | Option.none => PyVal.none)]⟩] := rfl

/-- C3: for every kept log record the TimeMark row is the 7-tuple
(timestamp, hour, day-of-month, ISO week, month, year, weekday index)
derived from the millisecond-epoch "ts" as the UTC calendar decomposition;
for ts = 1541440000000 that instant is 2018-11-05 17:46:40 UTC, a Monday
in ISO week 45, so the row is (ts, 17, 5, 45, 11, 2018, 0). -/
theorem C3_timeRow_utc (lookup : Lookup) (recs : List LogRecord)
    (r : LogRecord) (h1 : r ∈ recs) (h2 : r.page = "NextSong")
    (h3 : r.ts = 1541440000000) :
    DBAct.mk .time_table_insert
        [.dt 1541440000000, .i 17, .i 5, .i 45, .i 11, .i 2018, .i 0]
      ∈ process_log_file lookup recs := by
  have hk : r ∈ recs.filter fun x => x.page == "NextSong" := by
    simp [List.mem_filter, h1, h2]
  simp only [process_log_file]
  apply List.mem_append_left
  apply List.mem_append_left
  apply List.mem_map.mpr
  refine ⟨r, hk, ?_⟩
  rw [h3]
  decide

/-- A concrete NextSong record used to instantiate hypotheses of the
per-record theorems. -/
def sampleLog : LogRecord :=
  { page := "NextSong", ts := 1541440000000, userId := "8",
    firstName := "Kaylee", lastName := "Summers", gender := "F",
    level := "free", song := "Setanta matins", artist := "Elena",
    length := 269, sessionId := 139, location := "Phoenix",
    userAgent := "Mozilla" }

/-- Witness for C3 at a concrete one-record file. -/
theorem C3_timeRow_utc_witness :
    DBAct.mk .time_table_insert
        [.dt 1541440000000, .i 17, .i 5, .i 45, .i 11, .i 2018, .i 0]
      ∈ process_log_file (fun _ _ _ => Option.none) [sampleLog] :=
  C3_timeRow_utc (fun _ _ _ => Option.none) [sampleLog] sampleLog
    (by decide) rfl rfl

/-- C2: for every kept log record, the loader executes the catalog lookup
with (song, artist, length) and immediately afterwards the fact insert,
whose tuple is (timestamp, user id, level, song id, artist id, session id,
location, user agent) in that order, the ids taken from the lookup row if
one was returned and null/null otherwise. -/
theorem C2_lookup_then_insert (lookup : Lookup) (recs : List LogRecord)
    (r : LogRecord) (h : r ∈ recs.filter fun x => x.page == "NextSong") :
    [⟨.song_select, [.s r.song, .s r.artist, .r r.length]⟩,
     ⟨.songplay_table_insert,
       [.dt r.ts, .s r.userId, .s r.level,
        (match lookup r.song r.artist r.length with
         | Option.some ids => PyVal.s ids.1
         | Option.none => PyVal.none),
        (match lookup r.song r.artist r.length with
         | Option.some ids => PyVal.s ids.2
         | Option.none => PyVal.none),
        .i (r.sessionId : Nat), .s r.location, .s r.userAgent]⟩]
      <:+: process_log_file lookup recs := by
  have hrow : songplayBlock lookup r =
      [⟨.song_select, [.s r.song, .s r.artist, .r r.length]⟩,
       ⟨.songplay_table_insert,
         [.dt r.ts, .s r.userId, .s r.level,
          (match lookup r.song r.artist r.length with
           | Option.some ids => PyVal.s ids.1
           | Option.none => PyVal.none),
          (match lookup r.song r.artist r.length with
           | Option.some ids => PyVal.s ids.2
           | Option.none => PyVal.none),
          .i (r.sessionId : Nat), .s r.location, .s r.userAgent]⟩] := by
    cases hl : lookup r.song r.artist r.length with
    | none => simp [songplayBlock, songplayRow, hl]
    | some ids => simp [songplayBlock, songplayRow, hl]
  obtain ⟨s1, t1, hsplit⟩ := List.append_of_mem h
  rw [← hrow]
  simp only [process_log_file, hsplit]
  exact ⟨(s1 ++ r :: t1).map (fun x => DBAct.mk .time_table_insert (timeRow x.ts))
      ++ (s1 ++ r :: t1).map (fun x => DBAct.mk .user_table_insert (userRow x))
      ++ s1.flatMap (songplayBlock lookup),
    t1.flatMap (songplayBlock lookup),
    by simp [List.flatMap_append, List.append_assoc]⟩

/-- Witness for C2: a one-record file against a catalog that resolves the
record, and the resulting lookup-then-insert pair in the trace. -/
theorem C2_lookup_then_insert_witness :
    [⟨.song_select, [.s "Setanta matins", .s "Elena", .r 269]⟩,
     ⟨.songplay_table_insert,
       [.dt 1541440000000, .s "8", .s "free", .s "SOZCTXZ", .s "AR5KOSW",
        .i 139, .s "Phoenix", .s "Mozilla"]⟩]
      <:+: process_log_file (fun _ _ _ => Option.some ("SOZCTXZ", "AR5KOSW"))
            [sampleLog] :=
  C2_lookup_then_insert (fun _ _ _ => Option.some ("SOZCTXZ", "AR5KOSW"))
    [sampleLog] sampleLog (by decide)

theorem playSec_getElem (lookup : Lookup) (l : List LogRecord) (k : Nat) :
    (l.flatMap (songplayBlock lookup))[k]? =
      if k % 2 = 0
      then l[k / 2]?.map fun r =>
        DBAct.mk .song_select [.s r.song, .s r.artist, .r r.length]
      else l[k / 2]?.map fun r =>
        DBAct.mk .songplay_table_insert (songplayRow lookup r) := by
  induction l generalizing k with
  | nil => simp
  | cons r l ih =>
      match k with
      | 0 => simp [songplayBlock]
      | 1 => simp [songplayBlock]
      | (k+2) =>
          rw [List.flatMap_cons,
            List.getElem?_append_right (by simp [songplayBlock])]
          have e1 : (k+2) % 2 = k % 2 := by omega
          have e2 : (k+2) / 2 = k / 2 + 1 := by omega
          have e3 : k + 2 - (songplayBlock lookup r).length = k := rfl
          rw [e1, e2, e3, List.getElem?_cons_succ, ih]

/-- Positional description of the trace of one log file over the kept
records: time inserts first, then user inserts, then lookup/insert pairs. -/
theorem three_sec_getElem (lookup : Lookup) (kept : List LogRecord)
    (k : Nat) :
    (kept.map (fun r => DBAct.mk Stmt.time_table_insert (timeRow r.ts)) ++
      kept.map (fun r => DBAct.mk Stmt.user_table_insert (userRow r)) ++
      kept.flatMap (songplayBlock lookup))[k]? =
      if k < kept.length then kept[k]?.map fun r =>
        DBAct.mk .time_table_insert (timeRow r.ts)
      else if k < 2 * kept.length then kept[k - kept.length]?.map fun r =>
        DBAct.mk .user_table_insert (userRow r)
      else if (k - 2 * kept.length) % 2 = 0 then
        kept[(k - 2 * kept.length) / 2]?.map fun r =>
          DBAct.mk .song_select [.s r.song, .s r.artist, .r r.length]
      else kept[(k - 2 * kept.length) / 2]?.map fun r =>
        DBAct.mk .songplay_table_insert (songplayRow lookup r) := by
  rcases Nat.lt_or_ge k kept.length with h1 | h1
  · rw [List.getElem?_append_left (by simp; omega),
      List.getElem?_append_left (by simpa using h1), List.getElem?_map]
    simp [h1]
  · rcases Nat.lt_or_ge k (2 * kept.length) with h2 | h2
    · rw [List.getElem?_append_left (by simp; omega),
        List.getElem?_append_right (by simpa using h1), List.getElem?_map]
      simp [Nat.not_lt.mpr h1, h2]
    · rw [List.getElem?_append_right (by simp; omega), playSec_getElem]
      have e : k - ((kept.map fun r =>
          DBAct.mk Stmt.time_table_insert (timeRow r.ts)) ++
          kept.map fun r =>
          DBAct.mk Stmt.user_table_insert (userRow r)).length =
          k - 2 * kept.length := by
        simp; omega
      rw [e]
      have h3 : ¬ k < kept.length := by omega
      have h4 : ¬ k < 2 * kept.length := by omega
      simp [h3, h4]

/-- C5: within one log file's trace every TimeMark insert precedes every
SongPlay insert, and each SongPlay insert is preceded by a TimeMark
insert whose timestamp (first tuple field) equals the SongPlay's. -/
theorem C5_time_before_songplay (lookup : Lookup) (recs : List LogRecord) :
    (∀ (j k : Nat) (tp pp : List PyVal),
        (process_log_file lookup recs)[j]? =
          Option.some (DBAct.mk Stmt.time_table_insert tp) →
        (process_log_file lookup recs)[k]? =
          Option.some (DBAct.mk Stmt.songplay_table_insert pp) → j < k)
    ∧ (∀ (k : Nat) (pp : List PyVal),
        (process_log_file lookup recs)[k]? =
          Option.some (DBAct.mk Stmt.songplay_table_insert pp) →
        ∃ (j : Nat) (tp : List PyVal), j < k ∧
          (process_log_file lookup recs)[j]? =
            Option.some (DBAct.mk Stmt.time_table_insert tp) ∧
          tp.head? = pp.head?) := by
  have key : ∀ (m : Nat), (process_log_file lookup recs)[m]? =
      ((recs.filter fun r => r.page == "NextSong").map
          (fun r => DBAct.mk Stmt.time_table_insert (timeRow r.ts)) ++
        (recs.filter fun r => r.page == "NextSong").map
          (fun r => DBAct.mk Stmt.user_table_insert (userRow r)) ++
        (recs.filter fun r => r.page == "NextSong").flatMap
          (songplayBlock lookup))[m]? := fun _ => rfl
  constructor
  · intro j k tp pp hj hk
    rw [key, three_sec_getElem] at hj hk
    split_ifs at hj with c1 c2 c3
    · split_ifs at hk with d1 d2 d3
      · obtain ⟨r, _, heq⟩ := Option.map_eq_some'.mp hk
        simp at heq
      · obtain ⟨r, _, heq⟩ := Option.map_eq_some'.mp hk
        simp at heq
      · obtain ⟨r, _, heq⟩ := Option.map_eq_some'.mp hk
        simp at heq
      · omega
    · obtain ⟨r, _, heq⟩ := Option.map_eq_some'.mp hj
      simp at heq
    · obtain ⟨r, _, heq⟩ := Option.map_eq_some'.mp hj
      simp at heq
    · obtain ⟨r, _, heq⟩ := Option.map_eq_some'.mp hj
      simp at heq
  · intro k pp hk
    rw [key, three_sec_getElem] at hk
    split_ifs at hk with d1 d2 d3
    · obtain ⟨r, _, heq⟩ := Option.map_eq_some'.mp hk
      simp at heq
    · obtain ⟨r, _, heq⟩ := Option.map_eq_some'.mp hk
      simp at heq
    · obtain ⟨r, _, heq⟩ := Option.map_eq_some'.mp hk
      simp at heq
    · obtain ⟨r, hr, heq⟩ := Option.map_eq_some'.mp hk
      have hparams : songplayRow lookup r = pp := by
        simpa using heq
      have hm : (k - 2 * (recs.filter fun x =>
          x.page == "NextSong").length) / 2 <
          (recs.filter fun x => x.page == "NextSong").length :=
        (List.getElem?_eq_some_iff.mp hr).1
      refine ⟨(k - 2 * (recs.filter fun x =>
          x.page == "NextSong").length) / 2, timeRow r.ts, by omega, ?_, ?_⟩
      · rw [key, three_sec_getElem, if_pos hm, hr]
        rfl
      · rw [← hparams]
        rfl

/-- Witness for C5 at a one-record file: the songplay insert sits at
position 3 and a matching time insert precedes it. -/
theorem C5_time_before_songplay_witness :
    ∃ (j : Nat) (tp : List PyVal), j < 3 ∧
      (process_log_file (fun _ _ _ => Option.none) [sampleLog])[j]? =
        Option.some (DBAct.mk Stmt.time_table_insert tp) ∧
      tp.head? = (songplayRow (fun _ _ _ => Option.none) sampleLog).head? :=
  (C5_time_before_songplay (fun _ _ _ => Option.none) [sampleLog]).2 3
    (songplayRow (fun _ _ _ => Option.none) sampleLog) (by decide)

theorem driverLoop_getElem (func : Func) (n : Nat) (fs : List String) :
    ∀ (start i : Nat) (h : i < fs.length),
      (driverLoop func n start fs)[3 * i]? =
        Option.some (Ev.proc func (fs.get ⟨i, h⟩)) ∧
      (driverLoop func n start fs)[3 * i + 1]? = Option.some Ev.commit ∧
      (driverLoop func n start fs)[3 * i + 2]? =
        Option.some (Ev.print (toString (start + i) ++ "/" ++ toString n ++
          " files processed.")) := by
  induction fs with
  | nil => intro start i h; simp at h
  | cons f fs ih =>
      intro start i h
      match i with
      | 0 => simp [driverLoop]
      | (i+1) =>
          obtain ⟨ha, hb, hc⟩ := ih (start + 1) i (by simp at h; omega)
          refine ⟨?_, ?_, ?_⟩
          · rw [show 3 * (i+1) = 3 * i + 1 + 1 + 1 from by omega, driverLoop]
            simp only [List.getElem?_cons_succ]
            exact ha
          · rw [show 3 * (i+1) + 1 = 3 * i + 1 + 1 + 1 + 1 from by omega,
              driverLoop]
            simp only [List.getElem?_cons_succ]
            exact hb
          · rw [show 3 * (i+1) + 2 = 3 * i + 2 + 1 + 1 + 1 from by omega,
              driverLoop]
            simp only [List.getElem?_cons_succ]
            rw [show start + (i + 1) = start + 1 + i from by omega]
            exact hc

/-- C6: files are processed strictly sequentially; immediately after file
i (1-based) is processed the driver commits and then prints the progress
line "i/n files processed.", so the commit for file i (position 3i+2 in
the event trace) precedes the processing of file i+1 (position 3(i+1)+1). -/
theorem C6_commit_after_each_file (cwd p : String)
    (fs : Option (List FSEntry)) (func : Func) (i : Nat)
    (h : i < (process_data cwd p fs func).all_files.length) :
    (process_data cwd p fs func).events[3 * i + 1]? =
      Option.some (Ev.proc func
        ((process_data cwd p fs func).all_files.get ⟨i, h⟩)) ∧
    (process_data cwd p fs func).events[3 * i + 2]? =
      Option.some Ev.commit ∧
    (process_data cwd p fs func).events[3 * i + 3]? =
      Option.some (Ev.print (toString (i + 1) ++ "/" ++
        toString (process_data cwd p fs func).all_files.length ++
        " files processed.")) ∧
    3 * i + 2 < 3 * (i + 1) + 1 := by
  obtain ⟨ha, hb, hc⟩ := driverLoop_getElem func
    (process_data cwd p fs func).all_files.length
    (process_data cwd p fs func).all_files 1 i h
  have hev : (process_data cwd p fs func).events =
      Ev.print (toString (process_data cwd p fs func).all_files.length ++
        " files found in " ++ p) ::
      driverLoop func (process_data cwd p fs func).all_files.length 1
        (process_data cwd p fs func).all_files := rfl
  refine ⟨?_, ?_, ?_, by omega⟩
  · rw [hev, List.getElem?_cons_succ]
    exact ha
  · rw [show (3 : Nat) * i + 2 = (3 * i + 1) + 1 from by omega, hev,
      List.getElem?_cons_succ]
    exact hb
  · rw [show (3 : Nat) * i + 3 = (3 * i + 2) + 1 from by omega, hev,
      List.getElem?_cons_succ,
      show (i : Nat) + 1 = 1 + i from by omega]
    exact hc

/-- Witness for C6 at a concrete two-file directory: file 1 is processed
at position 1, committed at position 2, progress printed at position 3. -/
theorem C6_commit_after_each_file_witness :
    (process_data "c" "p"
        (Option.some [FSEntry.file "a.json", FSEntry.file "b.json"])
        Func.song).events[1]? =
      Option.some (Ev.proc Func.song "c/p/a.json") ∧
    (process_data "c" "p"
        (Option.some [FSEntry.file "a.json", FSEntry.file "b.json"])
        Func.song).events[2]? = Option.some Ev.commit ∧
    (process_data "c" "p"
        (Option.some [FSEntry.file "a.json", FSEntry.file "b.json"])
        Func.song).events[3]? =
      Option.some (Ev.print "1/2 files processed.") := by
  have hfiles : (process_data "c" "p"
      (Option.some [FSEntry.file "a.json", FSEntry.file "b.json"])
      Func.song).all_files = ["c/p/a.json", "c/p/b.json"] := by
    simp [process_data, process_data_files, walkRoot, FSEntry.walk,
      globJson, globMatchJson]
    decide
  have h : 0 < (process_data "c" "p"
      (Option.some [FSEntry.file "a.json", FSEntry.file "b.json"])
      Func.song).all_files.length := by
    rw [hfiles]; decide
  obtain ⟨ha, hb, hc, _⟩ := C6_commit_after_each_file "c" "p"
    (Option.some [FSEntry.file "a.json", FSEntry.file "b.json"])
    Func.song 0 h
  have hget : (process_data "c" "p"
      (Option.some [FSEntry.file "a.json", FSEntry.file "b.json"])
      Func.song).all_files.get ⟨0, h⟩ = "c/p/a.json" := by
    simp [hfiles]
  refine ⟨?_, hb, ?_⟩
  · rw [show (1 : Nat) = 3 * 0 + 1 from rfl, ha, hget]
  · rw [show (3 : Nat) = 3 * 0 + 3 from rfl, hc, hfiles]
    decide

theorem filterMap_proc_driverLoop (func : Func) (n : Nat) :
    ∀ (start : Nat) (fs : List String),
      (driverLoop func n start fs).filterMap
        (fun e => match e with
          | Ev.proc _ f => Option.some f
          | _ => Option.none) = fs := by
  intro start fs
  induction fs generalizing start with
  | nil => rfl
  | cons f fs ih => simp [driverLoop, ih]

/-- C9: `process_data` returns None for every input — the list of
processed absolute file paths described in its documentation is built
internally (it is exactly the sequence of paths its per-file events run
on) but never returned to the caller. -/
theorem C9_returns_none (cwd p : String) (fs : Option (List FSEntry))
    (func : Func) :
    (process_data cwd p fs func).ret = Option.none ∧
    (process_data cwd p fs func).events.filterMap
        (fun e => match e with
          | Ev.proc _ f => Option.some f
          | _ => Option.none) =
      (process_data cwd p fs func).all_files := by
  refine ⟨rfl, ?_⟩
  simp [process_data, filterMap_proc_driverLoop]

/-- C10: with no ".json" file beneath the root (also when the path does
not exist, i.e. the walk yields nothing), `process_data` runs the
pipeline zero times, commits zero times, and only prints the
"0 files found" line, terminating normally. -/
theorem C10_no_files (cwd p : String) (fs : Option (List FSEntry))
    (func : Func) (h : process_data_files cwd p fs = []) :
    (process_data cwd p fs func).events =
      [Ev.print ("0 files found in " ++ p)] ∧
    (process_data cwd p fs func).events.countP
        (fun e => match e with | Ev.proc _ _ => true | _ => false) = 0 ∧
    (process_data cwd p fs func).events.countP
        (fun e => match e with | Ev.commit => true | _ => false) = 0 ∧
    (process_data cwd p fs func).ret = Option.none := by
  have he : (process_data cwd p fs func).events =
      [Ev.print ("0 files found in " ++ p)] := by
    simp [process_data, h, driverLoop]
    congr 1
  refine ⟨he, ?_, ?_, rfl⟩ <;> rw [he] <;> rfl

/-- Witness for C10: the log-data root does not exist, the walk yields
nothing, and the driver prints the zero line and stops. -/
theorem C10_no_files_witness :
    (process_data "c" "data/log_data" Option.none Func.log).events =
      [Ev.print ("0 files found in " ++ "data/log_data")] ∧
    (process_data "c" "data/log_data" Option.none Func.log).events.countP
        (fun e => match e with | Ev.proc _ _ => true | _ => false) = 0 ∧
    (process_data "c" "data/log_data" Option.none Func.log).events.countP
        (fun e => match e with | Ev.commit => true | _ => false) = 0 ∧
    (process_data "c" "data/log_data" Option.none Func.log).ret =
      Option.none :=
  C10_no_files "c" "data/log_data" Option.none Func.log rfl

/-- C7 counterexample: in a root holding a hidden file ".h.json" and a
directory "d.json", the enumeration misses the hidden file (whose name
ends in ".json") and collects the directory (which is not a file), so it
does not collect exactly the set of files whose names end in ".json". -/
theorem C7_counterexample :
    (("c" ++ "/" ++ ("r" ++ "/" ++ ".h.json")) ∈
        jsonFilesRoot "c" "r"
          (Option.some [FSEntry.file ".h.json", FSEntry.dir "d.json" []]) ∧
      ("c" ++ "/" ++ ("r" ++ "/" ++ ".h.json")) ∉
        process_data_files "c" "r"
          (Option.some [FSEntry.file ".h.json", FSEntry.dir "d.json" []])) ∧
    (("c" ++ "/" ++ ("r" ++ "/" ++ "d.json")) ∈
        process_data_files "c" "r"
          (Option.some [FSEntry.file ".h.json", FSEntry.dir "d.json" []]) ∧
      ("c" ++ "/" ++ ("r" ++ "/" ++ "d.json")) ∉
        jsonFilesRoot "c" "r"
          (Option.some [FSEntry.file ".h.json", FSEntry.dir "d.json" []])) := by
  have h1 : process_data_files "c" "r"
      (Option.some [FSEntry.file ".h.json", FSEntry.dir "d.json" []]) =
      ["c/r/d.json"] := by
    simp [process_data_files, walkRoot, FSEntry.walk, globJson, globMatchJson]
    decide
  have h2 : jsonFilesRoot "c" "r"
      (Option.some [FSEntry.file ".h.json", FSEntry.dir "d.json" []]) =
      ["c/r/.h.json"] := by
    simp [jsonFilesRoot, jsonFilesBelow]
    decide
  rw [h1, h2]
  refine ⟨⟨?_, ?_⟩, ?_, ?_⟩ <;> decide

theorem proc_tag_driverLoop (func : Func) (n : Nat) :
    ∀ (start : Nat) (fs : List String) (g : Func) (f : String),
      Ev.proc g f ∈ driverLoop func n start fs → g = func := by
  intro start fs
  induction fs generalizing start with
  | nil => intro g f h; simp [driverLoop] at h
  | cons x fs ih =>
      intro g f h
      simp [driverLoop] at h
      rcases h with ⟨h, _⟩ | h
      · exact h
      · exact ih (start + 1) g f h

theorem proc_tag_events (cwd p : String) (fs : Option (List FSEntry))
    (func g : Func) (f : String)
    (h : Ev.proc g f ∈ (process_data cwd p fs func).events) : g = func := by
  have he : (process_data cwd p fs func).events =
      Ev.print (toString (process_data cwd p fs func).all_files.length ++
        " files found in " ++ p) ::
      driverLoop func (process_data cwd p fs func).all_files.length 1
        (process_data cwd p fs func).all_files := rfl
  rw [he] at h
  rcases List.mem_cons.mp h with h | h
  · simp at h
  · exact proc_tag_driverLoop func _ 1 _ g f h

/-- C8: each run opens exactly one connection, with the hard-coded DSN,
as the first action; closes it as the last action; and every song-pipeline
file processing happens before every log-pipeline file processing. -/
theorem C8_one_connection_song_before_log (cwd : String)
    (songFs logFs : Option (List FSEntry)) :
    (etl_main cwd songFs logFs).countP
        (fun e => match e with | MainEv.connect _ => true | _ => false) = 1 ∧
    (etl_main cwd songFs logFs).head? =
      Option.some (MainEv.connect
        "host=127.0.0.1 dbname=sparkifydb user=student password=student") ∧
    (etl_main cwd songFs logFs).getLast? = Option.some MainEv.close ∧
    (∀ (i j : Nat) (f g : String),
        (etl_main cwd songFs logFs)[i]? =
          Option.some (MainEv.driver (Ev.proc Func.song f)) →
        (etl_main cwd songFs logFs)[j]? =
          Option.some (MainEv.driver (Ev.proc Func.log g)) → i < j) := by
  refine ⟨?_, rfl, ?_, ?_⟩
  · rw [etl_main, List.countP_cons]
    simp only [List.countP_append]
    rw [List.countP_eq_zero.mpr, List.countP_eq_zero.mpr,
      List.countP_eq_zero.mpr]
    · rfl
    · intro a ha; simp at ha; subst ha; simp
    · intro a ha; rcases List.mem_map.mp ha with ⟨e, _, rfl⟩; simp
    · intro a ha; rcases List.mem_map.mp ha with ⟨e, _, rfl⟩; simp
  · rw [show etl_main cwd songFs logFs =
      (MainEv.connect
          "host=127.0.0.1 dbname=sparkifydb user=student password=student" ::
        ((process_data cwd "data/song_data" songFs Func.song).events.map
            MainEv.driver ++
          (process_data cwd "data/log_data" logFs Func.log).events.map
            MainEv.driver)) ++ [MainEv.close] from rfl,
      List.getLast?_concat]
  · intro i j f g hi hj
    match i, hi with
    | 0, hi => simp [etl_main] at hi
    | (i+1), hi =>
      match j, hj with
      | 0, hj => simp [etl_main] at hj
      | (j+1), hj =>
        rw [etl_main, List.getElem?_cons_succ] at hi hj
        have hA : ∀ (m : Nat) (g2 : Func) (f2 : String),
            ((process_data cwd "data/song_data" songFs Func.song).events.map
              MainEv.driver)[m]? =
              Option.some (MainEv.driver (Ev.proc g2 f2)) → g2 = Func.song := by
          intro m g2 f2 hm
          obtain ⟨hlt, heq⟩ := List.getElem?_eq_some_iff.mp hm
          have hmem := List.getElem_mem hlt
          rw [heq] at hmem
          rcases List.mem_map.mp hmem with ⟨e, he, heq2⟩
          cases heq2
          exact proc_tag_events cwd "data/song_data" songFs Func.song g2 f2
            (by exact he)
        have hB : ∀ (m : Nat) (g2 : Func) (f2 : String),
            ((process_data cwd "data/log_data" logFs Func.log).events.map
              MainEv.driver)[m]? =
              Option.some (MainEv.driver (Ev.proc g2 f2)) → g2 = Func.log := by
          intro m g2 f2 hm
          obtain ⟨hlt, heq⟩ := List.getElem?_eq_some_iff.mp hm
          have hmem := List.getElem_mem hlt
          rw [heq] at hmem
          rcases List.mem_map.mp hmem with ⟨e, he, heq2⟩
          cases heq2
          exact proc_tag_events cwd "data/log_data" logFs Func.log g2 f2
            (by exact he)
        set A := (process_data cwd "data/song_data" songFs Func.song).events.map
          MainEv.driver with hAdef
        set B := (process_data cwd "data/log_data" logFs Func.log).events.map
          MainEv.driver with hBdef
        have hi' : i < A.length := by
          by_contra hc
          push_neg at hc
          rcases Nat.lt_or_ge i (A ++ B).length with d | d
          · rw [List.getElem?_append_left d, List.getElem?_append_right hc]
              at hi
            exact absurd (hB (i - A.length) Func.song f hi) (by simp)
          · rw [List.getElem?_append_right d] at hi
            cases h0 : i - (A ++ B).length with
            | zero => rw [h0] at hi; simp at hi
            | succ k => rw [h0] at hi; simp at hi
        have hj' : A.length ≤ j := by
          by_contra hc
          push_neg at hc
          rw [List.getElem?_append_left (by
              rw [List.length_append]; omega),
            List.getElem?_append_left hc] at hj
          exact absurd (hA j Func.log g hj) (by simp)
        omega

/-- Witness for C8 with one song file and one log file: one connect event,
connect first, close last, and the song-file processing (position 2)
precedes the log-file processing (position 6). -/
theorem C8_one_connection_song_before_log_witness :
    (etl_main "c" (Option.some [FSEntry.file "a.json"])
        (Option.some [FSEntry.file "b.json"])).countP
        (fun e => match e with | MainEv.connect _ => true | _ => false) = 1 ∧
    (etl_main "c" (Option.some [FSEntry.file "a.json"])
        (Option.some [FSEntry.file "b.json"])).head? =
      Option.some (MainEv.connect
        "host=127.0.0.1 dbname=sparkifydb user=student password=student") ∧
    (etl_main "c" (Option.some [FSEntry.file "a.json"])
        (Option.some [FSEntry.file "b.json"])).getLast? =
      Option.some MainEv.close ∧
    2 < 6 :=
  ⟨(C8_one_connection_song_before_log "c"
      (Option.some [FSEntry.file "a.json"])
      (Option.some [FSEntry.file "b.json"])).1,
   (C8_one_connection_song_before_log "c"
      (Option.some [FSEntry.file "a.json"])
      (Option.some [FSEntry.file "b.json"])).2.1,
   (C8_one_connection_song_before_log "c"
      (Option.some [FSEntry.file "a.json"])
      (Option.some [FSEntry.file "b.json"])).2.2.1,
   (C8_one_connection_song_before_log "c"
      (Option.some [FSEntry.file "a.json"])
      (Option.some [FSEntry.file "b.json"])).2.2.2 2 6
     "c/data/song_data/a.json" "c/data/log_data/b.json"
     (by
       simp [etl_main, process_data, process_data_files, walkRoot,
         FSEntry.walk, globJson, globMatchJson, driverLoop]
       decide)
     (by
       simp [etl_main, process_data, process_data_files, walkRoot,
         FSEntry.walk, globJson, globMatchJson, driverLoop]
       decide)⟩
